import Mathlib

/-!
Verification development for the `simple-webrtc` repository.

The Rust sources are shallowly embedded below:

* `Controller` and its operations (`dial`, `accept_call`, `hang_up`,
  `add_media_source`, `remove_media_source`, `recv_ice`, `recv_sdp`,
  `deinit`, and the private helper `connect`) follow `src/lib.rs`.
  Rust `HashMap`s are embedded as association lists with the
  `lookupAL` / `insertAL` / `eraseAL` operations defined here; the
  external `webrtc-rs` transport calls (peer-connection creation,
  `add_track`, `remove_track`, offer/answer negotiation) are fallible
  and are driven by an `Env` oracle that says which of them succeed.
  `Arc<RTCPeerConnection>` and `Arc<RTCRtpSender>` handles are embedded
  as natural-number tokens allocated from counters in the state.
* `OpusFramer.frame` follows `src/media/opus_source.rs` (the same code
  appears verbatim in `example/src/lib.rs`); the external opus encoder
  is an oracle `List Int → Option (List Nat)`.
* `decode_media_stream` follows `example/src/lib.rs`; the external
  `SampleBuilder` (push + drain) and opus decoder are oracles.
-/

set_option autoImplicit false

universe u v

/-! ## Association lists, embedding Rust's `HashMap` -/

variable {κ : Type u} {α : Type v}

/-- The `HashMap::get`: first value stored under key `k`. -/
def lookupAL [DecidableEq κ] : List (κ × α) → κ → Option α
  | [], _ => none
  | kv :: rest, k => if kv.1 = k then some kv.2 else lookupAL rest k

/-- The `HashMap::remove`: drop every entry with key `k` (on lists with
distinct keys this is exactly the hash-map removal). -/
def eraseAL [DecidableEq κ] : List (κ × α) → κ → List (κ × α)
  | [], _ => []
  | kv :: rest, k => if kv.1 = k then eraseAL rest k else kv :: eraseAL rest k

/-- The `HashMap::insert`: map `k` to `v`, replacing any previous entry. -/
def insertAL [DecidableEq κ] (l : List (κ × α)) (k : κ) (v : α) : List (κ × α) :=
  (k, v) :: eraseAL l k

/-- The `HashMap::get_mut`: apply `f` to the entry at key `k`, if any. -/
def updateAL [DecidableEq κ] (l : List (κ × α)) (k : κ) (f : α → α) : List (κ × α) :=
  l.map fun kv => if kv.1 = k then (kv.1, f kv.2) else kv

/-- The keys of an association list. -/
def keysAL : List (κ × α) → List κ := List.map Prod.fst

/-- Key distinctness, the well-formedness of a hash map image. -/
def keysNodup [DecidableEq κ] (l : List (κ × α)) : Prop := (keysAL l).Nodup

/-- Executable key distinctness. -/
def nodupKeysB [DecidableEq κ] : List (κ × α) → Bool
  | [] => true
  | kv :: rest => (lookupAL rest kv.1).isNone && nodupKeysB rest

section ALLemmas

variable [DecidableEq κ]

@[simp] theorem lookupAL_nil (k : κ) : lookupAL ([] : List (κ × α)) k = none := rfl

theorem lookupAL_cons (kv : κ × α) (rest : List (κ × α)) (k : κ) :
    lookupAL (kv :: rest) k = if kv.1 = k then some kv.2 else lookupAL rest k := rfl

@[simp] theorem lookupAL_eraseAL_self (l : List (κ × α)) (k : κ) :
    lookupAL (eraseAL l k) k = none := by
  induction l with
  | nil => rfl
  | cons kv rest ih =>
    by_cases h : kv.1 = k <;> simp [eraseAL, h, lookupAL_cons, ih]

theorem lookupAL_eraseAL_ne (l : List (κ × α)) (k k' : κ) (h : k' ≠ k) :
    lookupAL (eraseAL l k) k' = lookupAL l k' := by
  induction l with
  | nil => rfl
  | cons kv rest ih =>
    by_cases hk : kv.1 = k
    · subst hk
      have hne : kv.1 ≠ k' := fun hc => h hc.symm
      simp [eraseAL, lookupAL_cons, hne, ih]
    · simp only [eraseAL, hk, if_false, lookupAL_cons, ih]

@[simp] theorem lookupAL_insertAL_self (l : List (κ × α)) (k : κ) (v : α) :
    lookupAL (insertAL l k v) k = some v := by
  simp [insertAL, lookupAL_cons]

theorem lookupAL_insertAL_ne (l : List (κ × α)) (k k' : κ) (v : α) (h : k' ≠ k) :
    lookupAL (insertAL l k v) k' = lookupAL l k' := by
  have : k ≠ k' := fun hc => h hc.symm
  simp [insertAL, lookupAL_cons, this, lookupAL_eraseAL_ne l k k' h]

theorem mem_eraseAL {l : List (κ × α)} {k : κ} {kv : κ × α}
    (h : kv ∈ eraseAL l k) : kv ∈ l ∧ kv.1 ≠ k := by
  induction l with
  | nil => cases h
  | cons hd rest ih =>
    by_cases hk : hd.1 = k
    · simp only [eraseAL, hk, if_true] at h
      rcases ih h with ⟨h1, h2⟩
      exact ⟨List.mem_cons_of_mem _ h1, h2⟩
    · simp only [eraseAL, hk, if_false, List.mem_cons] at h
      rcases h with h | h
      · exact ⟨by simp [h], by rw [h]; exact hk⟩
      · rcases ih h with ⟨h1, h2⟩
        exact ⟨List.mem_cons_of_mem _ h1, h2⟩

theorem not_mem_keysAL_eraseAL (l : List (κ × α)) (k : κ) :
    k ∉ keysAL (eraseAL l k) := by
  intro h
  rcases List.mem_map.mp h with ⟨kv, hmem, hk⟩
  exact (mem_eraseAL hmem).2 hk

theorem keysNodup_eraseAL {l : List (κ × α)} (k : κ) (h : keysNodup l) :
    keysNodup (eraseAL l k) := by
  induction l with
  | nil => exact h
  | cons kv rest ih =>
    rcases List.nodup_cons.mp h with ⟨hk, hrest⟩
    by_cases hh : kv.1 = k
    · simpa [keysNodup, keysAL, eraseAL, hh] using ih hrest
    · simp only [eraseAL, hh, if_false]
      show (kv.1 :: keysAL (eraseAL rest k)).Nodup
      refine List.nodup_cons.mpr ⟨?_, ih hrest⟩
      intro hc
      rcases List.mem_map.mp hc with ⟨kv', hmem, hk'⟩
      exact hk (List.mem_map.mpr ⟨kv', (mem_eraseAL hmem).1, hk'⟩)

theorem keysNodup_insertAL {l : List (κ × α)} (k : κ) (v : α) (h : keysNodup l) :
    keysNodup (insertAL l k v) :=
  List.nodup_cons.mpr ⟨not_mem_keysAL_eraseAL l k, keysNodup_eraseAL k h⟩

theorem lookupAL_isSome_of_mem {l : List (κ × α)} {kv : κ × α} (h : kv ∈ l) :
    (lookupAL l kv.1).isSome = true := by
  induction l with
  | nil => cases h
  | cons hd rest ih =>
    rcases List.mem_cons.mp h with h | h
    · subst h; simp [lookupAL_cons]
    · by_cases hk : hd.1 = kv.1 <;> simp [lookupAL_cons, hk, ih h]

theorem lookupAL_eq_none_of_not_mem {l : List (κ × α)} {k : κ}
    (h : k ∉ keysAL l) : lookupAL l k = none := by
  induction l with
  | nil => rfl
  | cons hd rest ih =>
    have h1 : hd.1 ≠ k := by
      intro hc
      apply h
      show k ∈ hd.1 :: keysAL rest
      rw [hc]
      exact List.mem_cons_self _ _
    have h2 : k ∉ keysAL rest := fun hc => h (List.mem_cons_of_mem _ hc)
    rw [lookupAL_cons, if_neg h1]
    exact ih h2

theorem nodupKeysB_of_keysNodup {l : List (κ × α)} (h : keysNodup l) :
    nodupKeysB l = true := by
  induction l with
  | nil => rfl
  | cons kv rest ih =>
    rcases List.nodup_cons.mp h with ⟨hk, hrest⟩
    have h1 : lookupAL rest kv.1 = none :=
      lookupAL_eq_none_of_not_mem (by simpa [keysAL] using hk)
    simp [nodupKeysB, h1, ih hrest]

theorem eraseAL_eraseAL (l : List (κ × α)) (k : κ) :
    eraseAL (eraseAL l k) k = eraseAL l k := by
  induction l with
  | nil => rfl
  | cons kv rest ih =>
    by_cases h : kv.1 = k <;> simp [eraseAL, h, ih]

theorem eraseAL_of_lookup_none {l : List (κ × α)} {k : κ}
    (h : lookupAL l k = none) : eraseAL l k = l := by
  induction l with
  | nil => rfl
  | cons kv rest ih =>
    by_cases hk : kv.1 = k
    · simp [lookupAL_cons, hk] at h
    · simp only [lookupAL_cons, hk, if_false] at h
      simp [eraseAL, hk, ih h]

theorem updateAL_eraseAL (l : List (κ × α)) (k : κ) (f : α → α) :
    updateAL (eraseAL l k) k f = eraseAL l k := by
  induction l with
  | nil => rfl
  | cons kv rest ih =>
    by_cases h : kv.1 = k <;> simp [eraseAL, updateAL, h, ih] <;>
      simpa [updateAL] using ih

theorem keysAL_updateAL (l : List (κ × α)) (k : κ) (f : α → α) :
    keysAL (updateAL l k f) = keysAL l := by
  induction l with
  | nil => rfl
  | cons kv rest ih =>
    by_cases h : kv.1 = k <;> simp [updateAL, keysAL, h] <;>
      simpa [updateAL, keysAL] using ih

theorem lookupAL_map_values (l : List (κ × α)) (f : α → α) (k : κ) :
    lookupAL (l.map fun kv => (kv.1, f kv.2)) k = (lookupAL l k).map f := by
  induction l with
  | nil => rfl
  | cons kv rest ih =>
    by_cases h : kv.1 = k <;> simp [lookupAL_cons, h, ih]

theorem count_keysAL_insertAL (l : List (κ × α)) (k : κ) (v : α) :
    (keysAL (insertAL l k v)).count k = 1 := by
  have h0 : (keysAL (eraseAL l k)).count k = 0 :=
    List.count_eq_zero.mpr (not_mem_keysAL_eraseAL l k)
  show ((k, v).1 :: keysAL (eraseAL l k)).count k = 1
  rw [List.count_cons_self, h0]

end ALLemmas

/-! ## Data model, from `src/lib.rs` and `src/internal/data_types.rs` -/

/-- The `pub type PeerId = String;` -/
abbrev PeerId : Type := String

/-- The `pub type MediaSourceId = String;` (from `internal/data_types.rs`). -/
abbrev MediaSourceId : Type := String

/-- The `enum PeerState` from `internal/data_types.rs`. -/
inductive PeerState
  | Disconnected
  | WaitingForSdp
  | WaitingForIce
  | Connected
deriving DecidableEq, Repr

/-- The `RTCRtpCodecCapability`: the fields the library touches. -/
structure RTCRtpCodecCapability where
  mime_type : String
  clock_rate : Nat
  channels : Nat
deriving DecidableEq, Repr

/-- The `TrackLocalStaticRTP::new(codec, id, stream_id)` as called in
`Controller::add_media_source` with `id = source_id`,
`stream_id = self.id`. -/
structure TrackLocalStaticRTP where
  codec : RTCRtpCodecCapability
  id : MediaSourceId
  stream_id : PeerId
deriving DecidableEq, Repr

/-- The `RTCSessionDescription`: opaque blob tagged by how it was produced
(`create_offer` / `create_answer` on connection `conn`, or received
from the remote side). -/
inductive SessionDescription
  | offer (conn : Nat)
  | answer (conn : Nat)
  | remote (n : Nat)
deriving DecidableEq, Repr

/-- The `enum EmittedEvents` from `internal/events.rs`; session descriptions,
candidates and tracks carry opaque tokens. -/
inductive EmittedEvents
  | CallInitiated (dest : PeerId) (sdp : SessionDescription)
  | Sdp (dest : PeerId) (sdp : SessionDescription)
  | Ice (dest : PeerId) (candidate : Nat)
  | Disconnected (peer : PeerId)
  | TrackAdded (peer : PeerId) (track : Nat)
deriving DecidableEq, Repr

/-- The `struct Peer` from `src/lib.rs`: the `Arc<RTCPeerConnection>` is a
token, `rtp_senders : HashMap<MediaSourceId, Arc<RTCRtpSender>>` is an
association list of sender tokens. -/
structure Peer where
  state : PeerState
  id : PeerId
  connection : Nat
  rtp_senders : List (MediaSourceId × Nat)
deriving DecidableEq, Repr

/-- The error taxonomy of the spec (the Rust code returns `anyhow`
errors; `bail!("peer not found")` is `PeerNotFound`, failures of the
external webrtc calls are `TransportFailure` tagged with the name of
the call that failed). -/
inductive Err
  | PeerNotFound
  | PeerAlreadyExists
  | DuplicateSourceId
  | TransportFailure (call : String)
deriving DecidableEq, Repr

/-- The `struct Controller` from `src/lib.rs`.  The `emitted_event_chan`
channel is embedded as the list of events sent so far; `nextConn` and
`nextSender` are allocators for the opaque connection/sender tokens. -/
structure Controller where
  id : PeerId
  peers : List (PeerId × Peer)
  media_sources : List (MediaSourceId × TrackLocalStaticRTP)
  events : List EmittedEvents
  nextConn : Nat
  nextSender : Nat
deriving DecidableEq, Repr

/-- The `Controller::init`. -/
def Controller.init (id : PeerId) : Controller :=
  { id := id, peers := [], media_sources := [], events := [],
    nextConn := 0, nextSender := 0 }

/-- Oracle describing which external webrtc calls succeed.  `attachOk`
covers `RTCPeerConnection::add_track` (per peer and source); failures
of `remove_track` are logged and discarded by the library, so they
need no oracle. -/
structure Env where
  newConnOk : Bool
  attachOk : PeerId → MediaSourceId → Bool
  offerOk : Bool
  answerOk : Bool
  setLocalOk : Bool
  setRemoteOk : Bool

/-- The environment in which every transport call succeeds. -/
def envAllOk : Env :=
  { newConnOk := true, attachOk := fun _ _ => true, offerOk := true,
    answerOk := true, setLocalOk := true, setRemoteOk := true }

/-! ## Controller operations, from `src/lib.rs` -/

/-- The media-source attachment loop of `Controller::connect`
(`src/lib.rs:401-425`): for every registered media source, call
`add_track` on the new connection; on success store the fresh
`rtp_sender` in the local `rtp_senders` map, on failure log and
continue.  `ns` allocates the sender tokens. -/
def attachAllSources (pid : PeerId) (env : Env) :
    List (MediaSourceId × TrackLocalStaticRTP) → List (MediaSourceId × Nat) → Nat →
    List (MediaSourceId × Nat) × Nat
  | [], acc, ns => (acc, ns)
  | sv :: rest, acc, ns =>
    if env.attachOk pid sv.1 then
      attachAllSources pid env rest (insertAL acc sv.1 ns) (ns + 1)
    else
      attachAllSources pid env rest acc ns

/-- The `Controller::connect` (`src/lib.rs:307-436`): create a peer
connection, insert a `Peer` in state `WaitingForSdp` (overwriting and
warning if one existed), register the event callbacks (asynchronous,
no synchronous state change), attach all media sources, then set the
stored peer's `rtp_senders` through `get_mut`.  Returns the connection
handle. -/
def connect (c : Controller) (peer_id : PeerId) (env : Env) :
    Controller × Except Err Nat :=
  if env.newConnOk then
    let conn := c.nextConn
    let newPeer : Peer :=
      { state := .WaitingForSdp, id := peer_id, connection := conn, rtp_senders := [] }
    let peers1 := insertAL c.peers peer_id newPeer
    let r := attachAllSources peer_id env c.media_sources [] c.nextSender
    let peers2 := updateAL peers1 peer_id fun p => { p with rtp_senders := r.1 }
    ({ c with peers := peers2, nextConn := c.nextConn + 1, nextSender := r.2 },
     .ok conn)
  else
    (c, .error (.TransportFailure ("new_peer_connection")))

/-- The `Controller::dial` (`src/lib.rs:123-136`): `connect`, then
`create_offer`, `set_local_description`, and send
`CallInitiated { dest, sdp }` on the event channel. -/
def dial (c : Controller) (peer_id : PeerId) (env : Env) :
    Controller × Except Err Unit :=
  match connect c peer_id env with
  | (c1, .error e) => (c1, .error e)
  | (c1, .ok conn) =>
    if env.offerOk then
      if env.setLocalOk then
        ({ c1 with events :=
            (c1.events ++ [EmittedEvents.CallInitiated peer_id (.offer conn)]) },
         .ok ())
      else (c1, .error (.TransportFailure ("set_local_description")))
    else (c1, .error (.TransportFailure ("create_offer")))

/-- The `Controller::accept_call` (`src/lib.rs:138-171`): `connect`, feed
the remote description, `create_answer`, `set_local_description`,
transition the peer to `WaitingForIce` (bailing `peer not found` if it
vanished), and send `Sdp { dest, sdp }`. -/
def accept_call (c : Controller) (peer_id : PeerId)
    (_remote_sdp : SessionDescription) (env : Env) :
    Controller × Except Err Unit :=
  match connect c peer_id env with
  | (c1, .error e) => (c1, .error e)
  | (c1, .ok conn) =>
    if env.setRemoteOk then
      if env.answerOk then
        if env.setLocalOk then
          match lookupAL c1.peers peer_id with
          | some _ =>
            let c2 := { c1 with peers :=
              (updateAL c1.peers peer_id (fun p => { p with state := .WaitingForIce })) }
            ({ c2 with events :=
                (c2.events ++ [EmittedEvents.Sdp peer_id (.answer conn)]) },
             .ok ())
          | none => (c1, .error .PeerNotFound)
        else (c1, .error (.TransportFailure ("set_local_description")))
      else (c1, .error (.TransportFailure ("create_answer")))
    else (c1, .error (.TransportFailure ("set_remote_description")))

/-- The `Controller::hang_up` (`src/lib.rs:174-194`): detach every
`rtp_sender` from the transport (`remove_track`; failures only
logged), then remove the peer from the store (warning if it did not
exist).  The Rust function returns `()`, so there is no error path. -/
def hang_up (c : Controller) (peer_id : PeerId) : Controller :=
  { c with peers := eraseAL c.peers peer_id }

/-- The `Controller::deinit` (`src/lib.rs:112-119`): hang up every peer id
currently in the store; always returns `Ok(())`. -/
def deinit (c : Controller) : Controller × Except Err Unit :=
  ((keysAL c.peers).foldl hang_up c, .ok ())

/-- The fan-out loop of `Controller::add_media_source`
(`src/lib.rs:212-242`): for every stored peer, `add_track`; on
success insert the fresh sender into that peer's `rtp_senders`
(logging `duplicate rtp_sender` if one was replaced), on failure log
and continue with the next peer. -/
def attachToExistingPeers (source_id : MediaSourceId) (env : Env) :
    List (PeerId × Peer) → Nat → List (PeerId × Peer) × Nat
  | [], ns => ([], ns)
  | kv :: rest, ns =>
    if env.attachOk kv.1 source_id then
      let p : Peer := { kv.2 with rtp_senders := insertAL kv.2.rtp_senders source_id ns }
      let r := attachToExistingPeers source_id env rest (ns + 1)
      ((kv.1, p) :: r.1, r.2)
    else
      let r := attachToExistingPeers source_id env rest ns
      (kv :: r.1, r.2)

/-- The `Controller::add_media_source` (`src/lib.rs:198-245`): build the
local track, store it in `media_sources` (overwriting silently — the
`todo` in the source notes duplicates are not rejected), attach it to
every existing peer, and return the track.  Always `Ok`. -/
def add_media_source (c : Controller) (source_id : MediaSourceId)
    (codec : RTCRtpCodecCapability) (env : Env) :
    Controller × Except Err TrackLocalStaticRTP :=
  let track : TrackLocalStaticRTP :=
    { codec := codec, id := source_id, stream_id := c.id }
  let ms := insertAL c.media_sources source_id track
  let r := attachToExistingPeers source_id env c.peers c.nextSender
  ({ c with peers := r.1, media_sources := ms, nextSender := r.2 }, .ok track)

/-- The `Controller::remove_media_source` (`src/lib.rs:249-275`): for every
peer, `remove_track` on the transport (failure logged) and remove the
entry from that peer's `rtp_senders` (warning if absent); finally
remove the registry entry (warning if absent).  Always `Ok(())`. -/
def remove_media_source (c : Controller) (source_id : MediaSourceId) :
    Controller × Except Err Unit :=
  let peers := c.peers.map fun kv =>
    (kv.1, { kv.2 with rtp_senders := eraseAL kv.2.rtp_senders source_id })
  ({ c with peers := peers, media_sources := eraseAL c.media_sources source_id },
   .ok ())

/-- Lift the result of a forwarded transport call into the error
taxonomy: an `anyhow` failure of the webrtc call is a
`TransportFailure`, never `PeerNotFound`. -/
def liftTransport : Except String Unit → Except Err Unit
  | .ok _ => .ok ()
  | .error m => .error (.TransportFailure m)

/-- The `Controller::recv_ice` (`src/lib.rs:278-292`): bail `peer not
found` for an unknown peer; otherwise run `candidate.to_json()` and
`add_ice_candidate` on the peer's connection — both external calls,
summarized by the `forward` oracle — and return their result. -/
def recv_ice (c : Controller) (peer_id : PeerId)
    (forward : Except String Unit) : Except Err Unit :=
  match lookupAL c.peers peer_id with
  | some _ => liftTransport forward
  | none => .error .PeerNotFound

/-- The `Controller::recv_sdp` (`src/lib.rs:294-302`): bail `peer not
found` for an unknown peer; otherwise `set_remote_description` on the
peer's connection (the `forward` oracle) and return its result. -/
def recv_sdp (c : Controller) (peer_id : PeerId)
    (forward : Except String Unit) : Except Err Unit :=
  match lookupAL c.peers peer_id with
  | some _ => liftTransport forward
  | none => .error .PeerNotFound

/-! ## Frame assembler, from `src/media/opus_source.rs` (`OpusFramer`) -/

/-- The `struct OpusFramer`: the opus encoder itself is external (an
oracle passed to `frame`); `opus_out` is only a scratch buffer for the
encoder and is represented by the oracle's output. -/
structure OpusFramer where
  raw_samples : List Int
  frame_size : Nat
deriving DecidableEq, Repr

/-- The `OpusFramer::init(frame_size, ..)` (encoder construction assumed
to succeed; its failure aborts `init` before any framing happens). -/
def OpusFramer.init (frame_size : Nat) : OpusFramer :=
  { raw_samples := [], frame_size := frame_size }

/-- The `OpusFramer::frame` (`src/media/opus_source.rs:38-59`): push the
sample; when exactly `frame_size` samples have accumulated, run the
encoder.  On success clear the buffer and emit the encoded bytes; on
failure log and return `None` — the Rust code does NOT clear
`raw_samples` in the `Err` arm. -/
def OpusFramer.frame (f : OpusFramer) (encode : List Int → Option (List Nat))
    (sample : Int) : OpusFramer × Option (List Nat) :=
  let raw := f.raw_samples ++ [sample]
  if raw.length = f.frame_size then
    match encode raw with
    | some bytes => ({ f with raw_samples := [] }, some bytes)
    | none => ({ f with raw_samples := raw }, none)
  else
    ({ f with raw_samples := raw }, none)

/-- Drive `OpusFramer::frame` over a list of captured samples,
collecting the emitted frames in order (this is the loop body of the
capture callback in `SourceTrack::init`, `example/src/lib.rs:127-135`). -/
def feedFramer (encode : List Int → Option (List Nat)) :
    OpusFramer → List Int → OpusFramer × List (List Nat)
  | f, [] => (f, [])
  | f, s :: rest =>
    match OpusFramer.frame f encode s with
    | (f1, some b) =>
      let r := feedFramer encode f1 rest
      (r.1, b :: r.2)
    | (f1, none) => feedFramer encode f1 rest

/-! ## Receive-path decode loop, from `example/src/lib.rs`
(`decode_media_stream`) -/

/-- An RTP packet as far as the decode loop is concerned. -/
structure RtpPacket where
  payload : List Nat
deriving DecidableEq, Repr

/-- One `track.read` result: a byte buffer, or a read error that
closes the track. -/
inductive TrackRead
  | ok (bytes : List Nat)
  | err (msg : String)
deriving DecidableEq, Repr

/-- Why (or whether) the decode loop stopped after consuming a finite
read trace. -/
inductive DecodeOutcome
  | running
  | trackClosed (msg : String)
  | malformedPacket (msg : String)
deriving DecidableEq, Repr

/-- The per-stream pipeline state: the external `SampleBuilder`'s
state `σ` plus the samples sent to the playback channel so far. -/
structure DecodeState (σ : Type) where
  builder : σ
  sent : List Int
deriving DecidableEq, Repr

/-- The `decode_media_stream` (`example/src/lib.rs:243-303`) over a finite
trace of `track.read` results.  `unmarshal` is
`webrtc::rtp::packet::Packet::unmarshal`; `pushDrain` summarizes
`sample_builder.push` followed by the `while let Some(..) = pop`
drain, returning the new builder state and the reassembled frames;
`decode` is the opus decoder (a per-frame failure is logged and the
drain continues, contributing no samples).  A read error logs
`closing track` and breaks; an unmarshal failure logs and breaks —
the `Err` arm of the `match` on `unmarshal` is `break`, not
`continue`. -/
def decode_media_stream {σ : Type}
    (unmarshal : List Nat → Except String RtpPacket)
    (pushDrain : σ → RtpPacket → σ × List (List Nat))
    (decode : List Nat → Option (List Int)) :
    DecodeState σ → List TrackRead → DecodeState σ × DecodeOutcome
  | st, [] => (st, .running)
  | st, .err m :: _ => (st, .trackClosed m)
  | st, .ok bytes :: rest =>
    match unmarshal bytes with
    | .error m => (st, .malformedPacket m)
    | .ok pkt =>
      let r := pushDrain st.builder pkt
      let fresh := r.2.foldl (fun acc frame => acc ++ ((decode frame).getD [])) []
      decode_media_stream unmarshal pushDrain decode
        { builder := r.1, sent := st.sent ++ fresh } rest

/-! ## Operation sequences and the fan-out invariant (C1) -/

/-- The structural operations an application may interleave: register
or remove a media source, dial out, or accept an incoming call. -/
inductive Op
  | addSource (id : MediaSourceId) (codec : RTCRtpCodecCapability)
  | removeSource (id : MediaSourceId)
  | dialPeer (id : PeerId)
  | acceptCall (id : PeerId) (sdp : SessionDescription)

/-- Apply one operation with every transport call succeeding. -/
def applyOp (c : Controller) : Op → Controller
  | .addSource sid codec => (add_media_source c sid codec envAllOk).1
  | .removeSource sid => (remove_media_source c sid).1
  | .dialPeer pid => (dial c pid envAllOk).1
  | .acceptCall pid sdp => (accept_call c pid sdp envAllOk).1

/-- Run an operation sequence from a freshly initialized controller. -/
def runOps (ops : List Op) : Controller :=
  ops.foldl applyOp (Controller.init ("self"))

/-- Executable statement that a peer holds exactly one outbound
sender per registered media source: every registered source has a
sender, every sender belongs to a registered source, and the sender
map has no duplicate keys. -/
def peerSendersMatchB (ms : List (MediaSourceId × TrackLocalStaticRTP))
    (p : Peer) : Bool :=
  (ms.all fun sv => (lookupAL p.rtp_senders sv.1).isSome) &&
  (p.rtp_senders.all fun kv => (lookupAL ms kv.1).isSome) &&
  nodupKeysB p.rtp_senders

/-- Executable fan-out invariant over the whole store. -/
def consistentB (c : Controller) : Bool :=
  c.peers.all fun kv => peerSendersMatchB c.media_sources kv.2

/-- Executable statement that `source_id` is gone: no registry entry
and no sender for it in any peer. -/
def sourceRemovedB (c : Controller) (source_id : MediaSourceId) : Bool :=
  (lookupAL c.media_sources source_id).isNone &&
  (c.peers.all fun kv => (lookupAL kv.2.rtp_senders source_id).isNone)

/-- Executable statement that dialing `pid` from `c` (all transport
calls succeeding) leaves a peer whose sender map covers every media
source registered in `c`. -/
def dialAttachesAllB (c : Controller) (pid : PeerId) : Bool :=
  match lookupAL (dial c pid envAllOk).1.peers pid with
  | some p => c.media_sources.all fun sv => (lookupAL p.rtp_senders sv.1).isSome
  | none => false

/-- The propositional form of the fan-out invariant used for the
induction. -/
def SendersMatch (ms : List (MediaSourceId × TrackLocalStaticRTP))
    (p : Peer) : Prop :=
  keysNodup p.rtp_senders ∧
  ∀ sid, (lookupAL p.rtp_senders sid).isSome = (lookupAL ms sid).isSome

/-- Propositional fan-out invariant. -/
def Consistent (c : Controller) : Prop :=
  ∀ kv ∈ c.peers, SendersMatch c.media_sources kv.2

/-! ## Helper lemmas about the controller operations -/

/-- The peer stored by `connect c pid envAllOk`. -/
def connectPeer (c : Controller) (pid : PeerId) : Peer :=
  { state := .WaitingForSdp, id := pid, connection := c.nextConn,
    rtp_senders := (attachAllSources pid envAllOk c.media_sources [] c.nextSender).1 }

theorem updateAL_cons [DecidableEq κ] (kv : κ × α) (l : List (κ × α)) (k : κ)
    (f : α → α) :
    updateAL (kv :: l) k f =
      (if kv.1 = k then (kv.1, f kv.2) else kv) :: updateAL l k f := rfl

theorem connect_allOk (c : Controller) (pid : PeerId) :
    connect c pid envAllOk =
      ({ c with
          peers := (pid, connectPeer c pid) :: eraseAL c.peers pid,
          nextConn := c.nextConn + 1,
          nextSender := (attachAllSources pid envAllOk c.media_sources [] c.nextSender).2 },
       .ok c.nextConn) := by
  unfold connect
  simp only [envAllOk, if_true, insertAL, updateAL_cons, if_pos rfl, updateAL_eraseAL,
    connectPeer]

theorem dial_allOk (c : Controller) (pid : PeerId) :
    dial c pid envAllOk =
      ({ c with
          peers := (pid, connectPeer c pid) :: eraseAL c.peers pid,
          nextConn := c.nextConn + 1,
          nextSender := (attachAllSources pid envAllOk c.media_sources [] c.nextSender).2,
          events := c.events ++ [EmittedEvents.CallInitiated pid (.offer c.nextConn)] },
       .ok ()) := by
  unfold dial
  rw [connect_allOk]
  simp only [envAllOk, if_true]

/-- The `attachAllSources` under `envAllOk`: the resulting sender map has
distinct keys and covers exactly the source keys together with the
accumulator keys. -/
theorem attachAllSources_spec (pid : PeerId) :
    ∀ (sources : List (MediaSourceId × TrackLocalStaticRTP))
      (acc : List (MediaSourceId × Nat)) (ns : Nat), keysNodup acc →
      keysNodup (attachAllSources pid envAllOk sources acc ns).1 ∧
      ∀ sid, (lookupAL (attachAllSources pid envAllOk sources acc ns).1 sid).isSome =
        ((lookupAL sources sid).isSome || (lookupAL acc sid).isSome)
  | [], acc, ns, hacc => by
    refine ⟨hacc, fun sid => ?_⟩
    simp [attachAllSources]
  | sv :: rest, acc, ns, hacc => by
    have hstep : attachAllSources pid envAllOk (sv :: rest) acc ns =
        attachAllSources pid envAllOk rest (insertAL acc sv.1 ns) (ns + 1) := by
      simp [attachAllSources, envAllOk]
    rcases attachAllSources_spec pid rest (insertAL acc sv.1 ns) (ns + 1)
      (keysNodup_insertAL sv.1 ns hacc) with ⟨hn, hl⟩
    rw [hstep]
    refine ⟨hn, fun sid => ?_⟩
    rw [hl sid]
    by_cases hs : sid = sv.1
    · subst hs
      simp [lookupAL_cons]
    · have h1 : sv.1 ≠ sid := fun hc => hs hc.symm
      rw [lookupAL_insertAL_ne acc sv.1 sid ns hs, lookupAL_cons, if_neg h1]

theorem mem_updateAL [DecidableEq κ] {l : List (κ × α)} {k : κ} {f : α → α}
    {kv' : κ × α} (h : kv' ∈ updateAL l k f) :
    ∃ kv ∈ l, kv' = kv ∨ kv' = (kv.1, f kv.2) := by
  induction l with
  | nil => cases h
  | cons hd rest ih =>
    rw [updateAL_cons] at h
    rcases List.mem_cons.mp h with h | h
    · by_cases hk : hd.1 = k
      · rw [if_pos hk] at h
        exact ⟨hd, List.mem_cons_self _ _, Or.inr h⟩
      · rw [if_neg hk] at h
        exact ⟨hd, List.mem_cons_self _ _, Or.inl h⟩
    · rcases ih h with ⟨kv, hmem, hor⟩
      exact ⟨kv, List.mem_cons_of_mem _ hmem, hor⟩

/-- Where add_media_source's fan-out loop (all attaches succeeding)
sends each stored peer: the same key, with the new source inserted in
its sender map under some fresh token. -/
theorem mem_attachToExistingPeers (sid : MediaSourceId) :
    ∀ (peers : List (PeerId × Peer)) (ns : Nat) (kv' : PeerId × Peer),
      kv' ∈ (attachToExistingPeers sid envAllOk peers ns).1 →
      ∃ kv ∈ peers, ∃ m, kv' =
        (kv.1, { kv.2 with rtp_senders := insertAL kv.2.rtp_senders sid m })
  | [], _, _, h => by cases h
  | kv0 :: rest, ns, kv', h => by
    have hstep : (attachToExistingPeers sid envAllOk (kv0 :: rest) ns).1 =
        (kv0.1, { kv0.2 with rtp_senders := insertAL kv0.2.rtp_senders sid ns }) ::
          (attachToExistingPeers sid envAllOk rest (ns + 1)).1 := by
      simp [attachToExistingPeers, envAllOk]
    rw [hstep] at h
    rcases List.mem_cons.mp h with h | h
    · exact ⟨kv0, List.mem_cons_self _ _, ns, h⟩
    · rcases mem_attachToExistingPeers sid rest (ns + 1) kv' h with ⟨kv, hmem, m, hm⟩
      exact ⟨kv, List.mem_cons_of_mem _ hmem, m, hm⟩

theorem sendersMatch_insert {ms : List (MediaSourceId × TrackLocalStaticRTP)}
    {senders : List (MediaSourceId × Nat)} (sid : MediaSourceId)
    (track : TrackLocalStaticRTP) (m : Nat)
    (hn : keysNodup senders)
    (hl : ∀ s, (lookupAL senders s).isSome = (lookupAL ms s).isSome) :
    keysNodup (insertAL senders sid m) ∧
    ∀ s, (lookupAL (insertAL senders sid m) s).isSome =
      (lookupAL (insertAL ms sid track) s).isSome := by
  refine ⟨keysNodup_insertAL sid m hn, fun s => ?_⟩
  by_cases hs : s = sid
  · subst hs; simp
  · rw [lookupAL_insertAL_ne senders sid s m hs,
      lookupAL_insertAL_ne ms sid s track hs]
    exact hl s

theorem consistent_add_media_source {c : Controller} (h : Consistent c)
    (sid : MediaSourceId) (codec : RTCRtpCodecCapability) :
    Consistent (add_media_source c sid codec envAllOk).1 := by
  intro kv' hmem
  rcases mem_attachToExistingPeers sid c.peers c.nextSender kv' hmem with
    ⟨kv, hkv, m, hm⟩
  rcases h kv hkv with ⟨hn, hl⟩
  subst hm
  exact sendersMatch_insert sid _ m hn hl

theorem consistent_remove_media_source {c : Controller} (h : Consistent c)
    (sid : MediaSourceId) :
    Consistent (remove_media_source c sid).1 := by
  intro kv' hmem
  rcases List.mem_map.mp hmem with ⟨kv, hkv, hm⟩
  rcases h kv hkv with ⟨hn, hl⟩
  subst hm
  refine ⟨keysNodup_eraseAL sid hn, fun s => ?_⟩
  show (lookupAL (eraseAL kv.2.rtp_senders sid) s).isSome =
    (lookupAL (eraseAL c.media_sources sid) s).isSome
  by_cases hs : s = sid
  · subst hs; simp
  · rw [lookupAL_eraseAL_ne _ sid s hs, lookupAL_eraseAL_ne _ sid s hs]
    exact hl s

theorem consistent_connect {c : Controller} (h : Consistent c) (pid : PeerId) :
    Consistent (connect c pid envAllOk).1 := by
  rw [connect_allOk]
  intro kv' hmem
  rcases List.mem_cons.mp hmem with hm | hm
  · subst hm
    rcases attachAllSources_spec pid c.media_sources [] c.nextSender
      List.nodup_nil with ⟨hn, hl⟩
    refine ⟨hn, fun s => ?_⟩
    show (lookupAL (attachAllSources pid envAllOk c.media_sources [] c.nextSender).1 s).isSome =
      (lookupAL c.media_sources s).isSome
    rw [hl s]
    simp
  · exact h kv' (mem_eraseAL hm).1

theorem consistent_dial {c : Controller} (h : Consistent c) (pid : PeerId) :
    Consistent (dial c pid envAllOk).1 := by
  have hc := consistent_connect h pid
  rw [connect_allOk] at hc
  rw [dial_allOk]
  exact hc

theorem accept_allOk (c : Controller) (pid : PeerId) (sdp : SessionDescription) :
    accept_call c pid sdp envAllOk =
      ({ c with
          peers := (pid, { connectPeer c pid with state := .WaitingForIce }) ::
            eraseAL c.peers pid,
          nextConn := c.nextConn + 1,
          nextSender := (attachAllSources pid envAllOk c.media_sources [] c.nextSender).2,
          events := c.events ++ [EmittedEvents.Sdp pid (.answer c.nextConn)] },
       .ok ()) := by
  unfold accept_call
  rw [connect_allOk]
  simp [envAllOk, lookupAL_cons, updateAL_cons, updateAL_eraseAL, connectPeer]

theorem consistent_accept_call {c : Controller} (h : Consistent c) (pid : PeerId)
    (sdp : SessionDescription) :
    Consistent (accept_call c pid sdp envAllOk).1 := by
  rw [accept_allOk]
  intro kv' hmem
  rcases List.mem_cons.mp hmem with hm | hm
  · subst hm
    rcases attachAllSources_spec pid c.media_sources [] c.nextSender
      List.nodup_nil with ⟨hn, hl⟩
    refine ⟨hn, fun s => ?_⟩
    show (lookupAL (attachAllSources pid envAllOk c.media_sources [] c.nextSender).1 s).isSome =
      (lookupAL c.media_sources s).isSome
    rw [hl s]
    simp
  · exact h kv' (mem_eraseAL hm).1

theorem consistent_applyOp {c : Controller} (h : Consistent c) (op : Op) :
    Consistent (applyOp c op) := by
  cases op with
  | addSource sid codec => exact consistent_add_media_source h sid codec
  | removeSource sid => exact consistent_remove_media_source h sid
  | dialPeer pid => exact consistent_dial h pid
  | acceptCall pid sdp => exact consistent_accept_call h pid sdp

theorem consistent_foldl :
    ∀ (ops : List Op) (c : Controller), Consistent c →
      Consistent (ops.foldl applyOp c)
  | [], _, h => h
  | op :: rest, c, h => consistent_foldl rest (applyOp c op) (consistent_applyOp h op)

theorem consistent_runOps (ops : List Op) : Consistent (runOps ops) :=
  consistent_foldl ops (Controller.init ("self")) (fun kv hmem => by cases hmem)

theorem consistentB_of_consistent {c : Controller} (h : Consistent c) :
    consistentB c = true := by
  unfold consistentB
  rw [List.all_eq_true]
  intro kv hmem
  rcases h kv hmem with ⟨hn, hl⟩
  unfold peerSendersMatchB
  rw [Bool.and_eq_true, Bool.and_eq_true]
  refine ⟨⟨?_, ?_⟩, nodupKeysB_of_keysNodup hn⟩
  · rw [List.all_eq_true]
    intro sv hsv
    rw [hl sv.1]
    exact lookupAL_isSome_of_mem hsv
  · rw [List.all_eq_true]
    intro s hs
    rw [← hl s.1]
    exact lookupAL_isSome_of_mem hs

theorem sourceRemovedB_remove (c : Controller) (sid : MediaSourceId) :
    sourceRemovedB (remove_media_source c sid).1 sid = true := by
  unfold sourceRemovedB remove_media_source
  rw [Bool.and_eq_true]
  constructor
  · simp
  · rw [List.all_eq_true]
    intro kv hmem
    rcases List.mem_map.mp hmem with ⟨kv0, _, hm⟩
    subst hm
    simp

/-! ## Claim theorems -/

/-- C1: for every interleaving of (successful) `add_media_source`,
`remove_media_source`, `dial` and `accept_call` operations, every peer
in the store holds exactly one outbound rtp_sender per
currently-registered media source, and `remove_media_source sid`
removes the sender for `sid` from every peer as well as the registry
entry. -/
theorem c1_fanout_invariant (ops : List Op) (sid : MediaSourceId) :
    consistentB (runOps ops) = true ∧
    sourceRemovedB (remove_media_source (runOps ops) sid).1 sid = true :=
  ⟨consistentB_of_consistent (consistent_runOps ops),
   sourceRemovedB_remove (runOps ops) sid⟩

/-- C6: `hang_up` is total (the Rust signature returns `()`, so there
is no error to return); on a missing peer it is a no-op on the whole
controller state, it never touches the media-source registry, it
removes the named peer, and it leaves every other peer's entry
untouched. -/
theorem c6_hang_up_frame (c : Controller) (pid : PeerId) :
    (lookupAL c.peers pid = none → hang_up c pid = c) ∧
    (hang_up c pid).media_sources = c.media_sources ∧
    lookupAL (hang_up c pid).peers pid = none ∧
    ∀ q, q ≠ pid → lookupAL (hang_up c pid).peers q = lookupAL c.peers q := by
  refine ⟨fun h => ?_, rfl, ?_, fun q hq => ?_⟩
  · show { c with peers := eraseAL c.peers pid } = c
    rw [eraseAL_of_lookup_none h]
  · exact lookupAL_eraseAL_self c.peers pid
  · exact lookupAL_eraseAL_ne c.peers pid q hq

/-- A two-peer, one-source controller used to instantiate the
hypothesis-bearing theorems on concrete inputs. -/
def sampleController : Controller :=
  { id := "self",
    peers :=
      [("A", { state := .Connected, id := "A", connection := 0,
               rtp_senders := [("audio", 0)] }),
       ("B", { state := .Connected, id := "B", connection := 1,
               rtp_senders := [("audio", 1)] })],
    media_sources :=
      [("audio", { codec := { mime_type := "audio/opus", clock_rate := 48000,
                              channels := 1 },
                   id := "audio", stream_id := "self" })],
    events := [], nextConn := 2, nextSender := 2 }

/-- Witness for C6 at concrete inputs: hanging up the unknown peer
"X" is a no-op, and hanging up "B" leaves "A"'s entry unchanged. -/
theorem c6_hang_up_frame_witness :
    hang_up sampleController ("X") = sampleController ∧
    lookupAL (hang_up sampleController ("B")).peers ("A") =
      lookupAL sampleController.peers ("A") :=
  ⟨(c6_hang_up_frame sampleController ("X")).1 (by decide),
   (c6_hang_up_frame sampleController ("B")).2.2.2 ("A") (by decide)⟩

theorem remove_media_source_fst (c : Controller) (sid : MediaSourceId) :
    (remove_media_source c sid).1 =
      { c with
        peers := c.peers.map (fun kv =>
          (kv.1, { kv.2 with rtp_senders := eraseAL kv.2.rtp_senders sid })),
        media_sources := eraseAL c.media_sources sid } := rfl

/-- C7: `remove_media_source` always returns `Ok(())`; running it a
second time on the same id is a no-op on the state; and neither call
touches the registry entry or any peer's sender for a different
source id. -/
theorem c7_remove_media_source_idempotent (c : Controller) (sid : MediaSourceId) :
    (remove_media_source c sid).2 = .ok () ∧
    (remove_media_source (remove_media_source c sid).1 sid).2 = .ok () ∧
    (remove_media_source (remove_media_source c sid).1 sid).1 =
      (remove_media_source c sid).1 ∧
    ∀ sid', sid' ≠ sid →
      lookupAL (remove_media_source c sid).1.media_sources sid' =
        lookupAL c.media_sources sid' ∧
      ∀ pid, ((lookupAL (remove_media_source c sid).1.peers pid).map
          (fun p => lookupAL p.rtp_senders sid')) =
        ((lookupAL c.peers pid).map (fun p => lookupAL p.rtp_senders sid')) := by
  refine ⟨rfl, rfl, ?_, fun sid' hs => ⟨?_, fun pid => ?_⟩⟩
  · rw [remove_media_source_fst, remove_media_source_fst]
    simp only [List.map_map, eraseAL_eraseAL]
    congr 1
    apply List.map_congr_left
    intro kv _
    simp [Function.comp, eraseAL_eraseAL]
  · rw [remove_media_source_fst]
    show lookupAL (eraseAL c.media_sources sid) sid' = lookupAL c.media_sources sid'
    exact lookupAL_eraseAL_ne c.media_sources sid sid' hs
  · rw [remove_media_source_fst]
    have hmv : lookupAL (c.peers.map (fun kv =>
        (kv.1, { kv.2 with rtp_senders := eraseAL kv.2.rtp_senders sid }))) pid =
        (lookupAL c.peers pid).map
          (fun p => { p with rtp_senders := eraseAL p.rtp_senders sid }) :=
      lookupAL_map_values c.peers
        (fun p => { p with rtp_senders := eraseAL p.rtp_senders sid }) pid
    show ((lookupAL (c.peers.map (fun kv =>
        (kv.1, { kv.2 with rtp_senders := eraseAL kv.2.rtp_senders sid }))) pid).map
        (fun p => lookupAL p.rtp_senders sid')) =
      ((lookupAL c.peers pid).map (fun p => lookupAL p.rtp_senders sid'))
    rw [hmv]
    cases lookupAL c.peers pid with
    | none => rfl
    | some p =>
      show some (lookupAL (eraseAL p.rtp_senders sid) sid') =
        some (lookupAL p.rtp_senders sid')
      rw [lookupAL_eraseAL_ne p.rtp_senders sid sid' hs]

/-- Witness for C7 at concrete inputs: the double removal of "audio"
equals the single removal, and removing "audio" does not change the
registry entry for "video". -/
theorem c7_remove_media_source_idempotent_witness :
    (remove_media_source
      (remove_media_source sampleController ("audio")).1 ("audio")).1 =
      (remove_media_source sampleController ("audio")).1 ∧
    lookupAL (remove_media_source sampleController ("audio")).1.media_sources
      "video" = lookupAL sampleController.media_sources ("video") :=
  ⟨(c7_remove_media_source_idempotent sampleController ("audio")).2.2.1,
   ((c7_remove_media_source_idempotent sampleController ("audio")).2.2.2 ("video")
     (by decide)).1⟩

/-- C8: `recv_ice` / `recv_sdp` fail with `PeerNotFound` exactly when
the peer is missing from the store; when the peer exists they return
the forwarded transport call's result (which is never
`PeerNotFound`). -/
theorem c8_recv_signaling (c : Controller) (pid : PeerId)
    (fwdIce fwdSdp : Except String Unit) :
    (recv_ice c pid fwdIce = Except.error Err.PeerNotFound ↔
      lookupAL c.peers pid = none) ∧
    (lookupAL c.peers pid ≠ none → recv_ice c pid fwdIce = liftTransport fwdIce) ∧
    (recv_sdp c pid fwdSdp = Except.error Err.PeerNotFound ↔
      lookupAL c.peers pid = none) ∧
    (lookupAL c.peers pid ≠ none → recv_sdp c pid fwdSdp = liftTransport fwdSdp) := by
  have hlift : ∀ f : Except String Unit,
      liftTransport f ≠ Except.error Err.PeerNotFound := by
    intro f h
    cases f with
    | ok u => exact Except.noConfusion h
    | error m => exact Err.noConfusion (Except.error.inj h)
  unfold recv_ice recv_sdp
  cases hcase : lookupAL c.peers pid with
  | none =>
    exact ⟨iff_of_true rfl rfl, fun h => absurd rfl h,
      iff_of_true rfl rfl, fun h => absurd rfl h⟩
  | some p =>
    exact ⟨iff_of_false (hlift fwdIce) (fun h => Option.noConfusion h), fun _ => rfl,
      iff_of_false (hlift fwdSdp) (fun h => Option.noConfusion h), fun _ => rfl⟩

/-- Witness for C8 at concrete inputs: with peer "A" present, a
successful forward returns `Ok` and a failing forward surfaces as the
transport error, not `PeerNotFound`. -/
theorem c8_recv_signaling_witness :
    recv_ice sampleController ("A") (Except.ok ()) = Except.ok () ∧
    recv_sdp sampleController ("A") (Except.error ("transport")) =
      Except.error (Err.TransportFailure ("transport")) := by
  have h := c8_recv_signaling sampleController ("A") (Except.ok ())
    (Except.error ("transport"))
  exact ⟨h.2.1 (by decide), h.2.2.2 (by decide)⟩

/-- C9: from a state with no peer `pid`, a successful `dial pid` emits
exactly one event — `CallInitiated` to `pid` carrying the fresh offer
— and leaves exactly one store entry for `pid`, in state
`WaitingForSdp`. -/
theorem c9_dial_success (c : Controller) (pid : PeerId)
    (h : lookupAL c.peers pid = none) :
    (dial c pid envAllOk).2 = .ok () ∧
    (dial c pid envAllOk).1.events =
      c.events ++ [EmittedEvents.CallInitiated pid (.offer c.nextConn)] ∧
    (∃ p, lookupAL (dial c pid envAllOk).1.peers pid = some p ∧
      p.state = .WaitingForSdp) ∧
    (keysAL (dial c pid envAllOk).1.peers).count pid = 1 := by
  rw [dial_allOk]
  refine ⟨rfl, rfl, ⟨connectPeer c pid, ?_, rfl⟩, ?_⟩
  · show lookupAL ((pid, connectPeer c pid) :: eraseAL c.peers pid) pid =
      some (connectPeer c pid)
    rw [lookupAL_cons, if_pos rfl]
  · show (keysAL ((pid, connectPeer c pid) :: eraseAL c.peers pid)).count pid = 1
    exact count_keysAL_insertAL c.peers pid (connectPeer c pid)

/-- Witness for C9 at a concrete input: dialing "B" from a fresh
controller succeeds and leaves exactly one entry for "B". -/
theorem c9_dial_success_witness :
    (dial (Controller.init ("me")) "B" envAllOk).2 = .ok () ∧
    (keysAL (dial (Controller.init ("me")) "B" envAllOk).1.peers).count ("B") = 1 :=
  ⟨(c9_dial_success (Controller.init ("me")) "B" rfl).1,
   (c9_dial_success (Controller.init ("me")) "B" rfl).2.2.2⟩

/-- Dialing any peer with every transport call succeeding attaches
every currently-registered media source to the fresh peer. -/
theorem dialAttachesAll_true (c : Controller) (pid : PeerId) :
    dialAttachesAllB c pid = true := by
  rcases attachAllSources_spec pid c.media_sources [] c.nextSender
    List.nodup_nil with ⟨hn, hl⟩
  have hlook : lookupAL ((pid, connectPeer c pid) :: eraseAL c.peers pid) pid =
      some (connectPeer c pid) := by
    rw [lookupAL_cons, if_pos rfl]
  simp only [dialAttachesAllB, dial_allOk]
  rw [hlook]
  show c.media_sources.all
    (fun sv => (lookupAL (connectPeer c pid).rtp_senders sv.1).isSome) = true
  rw [List.all_eq_true]
  intro sv hsv
  show (lookupAL
    (attachAllSources pid envAllOk c.media_sources [] c.nextSender).1 sv.1).isSome = true
  rw [hl sv.1, lookupAL_isSome_of_mem hsv]
  rfl

theorem foldl_hang_up_components :
    ∀ (ks : List PeerId) (c : Controller),
      (ks.foldl hang_up c).media_sources = c.media_sources ∧
      (ks.foldl hang_up c).peers = ks.foldl eraseAL c.peers
  | [], _ => ⟨rfl, rfl⟩
  | k :: ks, c => by
    have ih := foldl_hang_up_components ks (hang_up c k)
    exact ih

theorem foldl_eraseAL_nil :
    ∀ (ks : List PeerId) (l : List (PeerId × Peer)), (∀ kv ∈ l, kv.1 ∈ ks) →
      ks.foldl eraseAL l = []
  | [], l, h => by
    cases l with
    | nil => rfl
    | cons kv rest => exact absurd (h kv (List.mem_cons_self _ _)) (List.not_mem_nil _)
  | k :: ks, l, h => by
    apply foldl_eraseAL_nil ks (eraseAL l k)
    intro kv hmem
    rcases mem_eraseAL hmem with ⟨h1, h2⟩
    rcases List.mem_cons.mp (h kv h1) with hx | hx
    · exact absurd hx h2
    · exact hx

/-- C10: `deinit` always returns `Ok(())`, empties the peer store,
leaves the media-source registry exactly unchanged, and every source
registered before `deinit` is attached to any peer dialed
afterwards. -/
theorem c10_deinit_keeps_sources (c : Controller) (pid : PeerId) :
    (deinit c).2 = .ok () ∧
    (deinit c).1.peers = [] ∧
    (deinit c).1.media_sources = c.media_sources ∧
    dialAttachesAllB (deinit c).1 pid = true := by
  have h := foldl_hang_up_components (keysAL c.peers) c
  refine ⟨rfl, ?_, h.1, dialAttachesAll_true _ pid⟩
  show ((keysAL c.peers).foldl hang_up c).peers = []
  rw [h.2]
  apply foldl_eraseAL_nil
  intro kv hmem
  exact List.mem_map.mpr ⟨kv, hmem, rfl⟩

/-- Counterexample to C2 as stated: starting from a state that already
holds a peer "B" (connection token 0), `dial "B"` with a working
transport does not fail with `PeerAlreadyExists` — it returns `Ok` and
replaces "B"'s entry (the stored connection token changes). -/
theorem c2_dial_existing_counterexample :
    (dial sampleController ("B") envAllOk).2 = .ok () ∧
    lookupAL (dial sampleController ("B") envAllOk).1.peers ("B") ≠
      lookupAL sampleController.peers ("B") := by
  constructor
  · rw [dial_allOk]
  · rw [dial_allOk]
    show lookupAL (("B", connectPeer sampleController ("B")) ::
      eraseAL sampleController.peers ("B")) "B" ≠
      lookupAL sampleController.peers ("B")
    decide

/-- C2 amended: dialing an already-present peer does not fail; it logs
`overwriting peer connection` and replaces the entry with a fresh
`WaitingForSdp` peer holding a newly created connection. -/
theorem c2_dial_existing_overwrites (c : Controller) (pid : PeerId)
    (h : lookupAL c.peers pid ≠ none) :
    (dial c pid envAllOk).2 = .ok () ∧
    lookupAL (dial c pid envAllOk).1.peers pid = some (connectPeer c pid) ∧
    (connectPeer c pid).state = .WaitingForSdp ∧
    (connectPeer c pid).connection = c.nextConn := by
  rw [dial_allOk]
  refine ⟨rfl, ?_, rfl, rfl⟩
  show lookupAL ((pid, connectPeer c pid) :: eraseAL c.peers pid) pid =
    some (connectPeer c pid)
  rw [lookupAL_cons, if_pos rfl]

/-- Witness for the amended C2 at a concrete input: redialing "B"
succeeds and installs the freshly allocated connection token 2. -/
theorem c2_dial_existing_overwrites_witness :
    (dial sampleController ("B") envAllOk).2 = .ok () ∧
    (connectPeer sampleController ("B")).connection = 2 :=
  ⟨(c2_dial_existing_overwrites sampleController ("B") (by decide)).1,
   (c2_dial_existing_overwrites sampleController ("B") (by decide)).2.2.2⟩

/-! ## Frame-assembler lemmas and claims C3, C4, C5 -/

theorem frame_emit (f : OpusFramer) (encode : List Int → Option (List Nat))
    (s : Int) (b : List Nat)
    (hlen : f.raw_samples.length + 1 = f.frame_size)
    (hb : encode (f.raw_samples ++ [s]) = some b) :
    OpusFramer.frame f encode s = ({ f with raw_samples := [] }, some b) := by
  unfold OpusFramer.frame
  rw [if_pos (by simpa using hlen), hb]

theorem frame_skip (f : OpusFramer) (encode : List Int → Option (List Nat))
    (s : Int) (hlen : f.raw_samples.length + 1 ≠ f.frame_size) :
    OpusFramer.frame f encode s =
      ({ f with raw_samples := f.raw_samples ++ [s] }, none) := by
  unfold OpusFramer.frame
  rw [if_neg (by simpa using hlen)]

/-- With an always-succeeding encoder, feeding `n` samples from a
buffer of `r < frame_size` accumulated samples emits
`(r + n) / frame_size` frames and leaves `(r + n) % frame_size`
samples buffered (the degenerate `frame_size = 0` never emits). -/
theorem feedFramer_spec (encode : List Int → Option (List Nat))
    (henc : ∀ l, encode l ≠ none) (fs : Nat) :
    ∀ (samples : List Int) (f : OpusFramer), f.frame_size = fs →
      (f.raw_samples.length < fs ∨ fs = 0) →
      (feedFramer encode f samples).2.length =
        (f.raw_samples.length + samples.length) / fs ∧
      (feedFramer encode f samples).1.raw_samples.length =
        (f.raw_samples.length + samples.length) % fs
  | [], f, hfs, hcond => by
    rcases hcond with hlt | h0
    · simp [feedFramer, Nat.div_eq_of_lt hlt, Nat.mod_eq_of_lt hlt]
    · simp [feedFramer, h0]
  | s :: rest, f, hfs, hcond => by
    by_cases hfull : f.raw_samples.length + 1 = fs
    · have h0 : fs ≠ 0 := by omega
      rcases Option.ne_none_iff_exists'.mp (henc (f.raw_samples ++ [s])) with ⟨b, hb⟩
      have hstep := frame_emit f encode s b (by rw [hfs]; exact hfull) hb
      have ih := feedFramer_spec encode henc fs rest { f with raw_samples := [] }
        hfs (by simpa using Or.inl (Nat.pos_of_ne_zero h0))
      simp only [feedFramer, hstep]
      rcases ih with ⟨ih1, ih2⟩
      constructor
      · show (feedFramer encode { f with raw_samples := [] } rest).2.length + 1 =
          (f.raw_samples.length + (rest.length + 1)) / fs
        rw [ih1]
        simp only [List.length_nil, Nat.zero_add]
        have : f.raw_samples.length + (rest.length + 1) = rest.length + fs := by omega
        rw [this, Nat.add_div_right _ (Nat.pos_of_ne_zero h0)]
      · show (feedFramer encode { f with raw_samples := [] } rest).1.raw_samples.length =
          (f.raw_samples.length + (rest.length + 1)) % fs
        rw [ih2]
        simp only [List.length_nil, Nat.zero_add]
        have : f.raw_samples.length + (rest.length + 1) = rest.length + fs := by omega
        rw [this, Nat.add_mod_right]
    · have hstep := frame_skip f encode s (by rw [hfs]; exact hfull)
      have hcond' : (f.raw_samples ++ [s]).length < fs ∨ fs = 0 := by
        rcases hcond with hlt | h0
        · left
          rw [List.length_append, List.length_singleton]
          omega
        · right; exact h0
      have ih := feedFramer_spec encode henc fs rest
        { f with raw_samples := f.raw_samples ++ [s] } hfs hcond'
      simp only [feedFramer, hstep]
      rcases ih with ⟨ih1, ih2⟩
      constructor
      · show (feedFramer encode { f with raw_samples := f.raw_samples ++ [s] } rest).2.length =
          (f.raw_samples.length + (rest.length + 1)) / fs
        rw [ih1]
        congr 1
        rw [List.length_append, List.length_singleton]
        omega
      · show (feedFramer encode
            { f with raw_samples := f.raw_samples ++ [s] } rest).1.raw_samples.length =
          (f.raw_samples.length + (rest.length + 1)) % fs
        rw [ih2]
        congr 1
        rw [List.length_append, List.length_singleton]
        omega

/-- C5: with the compressor succeeding, feeding `n` samples to a fresh
framer emits exactly `n / frame_size` full frames and keeps
`n % frame_size` samples buffered — so a partial trailing frame is
never emitted, 120 samples at `frame_size = 120` yield exactly one
frame (on the 120th sample), and 119 samples yield none. -/
theorem c5_framer_floor (encode : List Int → Option (List Nat))
    (henc : ∀ l, encode l ≠ none) (fs : Nat) (samples : List Int) :
    (feedFramer encode (OpusFramer.init fs) samples).2.length =
      samples.length / fs ∧
    (feedFramer encode (OpusFramer.init fs) samples).1.raw_samples.length =
      samples.length % fs := by
  have hcond : (OpusFramer.init fs).raw_samples.length < fs ∨ fs = 0 := by
    rcases Nat.eq_zero_or_pos fs with h | h
    · exact Or.inr h
    · exact Or.inl (by simpa [OpusFramer.init] using h)
  have h := feedFramer_spec encode henc fs samples (OpusFramer.init fs) rfl hcond
  simpa [OpusFramer.init] using h

/-- Witness for C5 at the spec's concrete inputs: frame_size 120,
feeding 120 samples emits exactly one frame, feeding 119 emits none. -/
theorem c5_framer_floor_witness :
    (feedFramer (fun _ => some []) (OpusFramer.init 120)
      (List.replicate 120 0)).2.length = 1 ∧
    (feedFramer (fun _ => some []) (OpusFramer.init 120)
      (List.replicate 119 0)).2.length = 0 := by
  have h1 := c5_framer_floor (fun _ => some [])
    (fun _ h => Option.noConfusion h) 120 (List.replicate 120 0)
  have h2 := c5_framer_floor (fun _ => some [])
    (fun _ h => Option.noConfusion h) 120 (List.replicate 119 0)
  constructor
  · rw [h1.1]
    norm_num
  · rw [h2.1]
    norm_num

/-- Encoder oracle for the C3 divergence run: fails on the frame
`[1, 2]` and succeeds (empty payload) on every other input. -/
def encFailFirst : List Int → Option (List Nat) :=
  fun l => if l = [1, 2] then none else some []

/-- C3, divergence exhibited at the failing input: with
`frame_size = 2`, feed `[1, 2, 3, 4]` where the encoder fails on the
first full frame `[1, 2]` and would succeed on anything else.  The
`Err` arm of `OpusFramer::frame` does not clear `raw_samples`, so the
buffer is NOT emptied: it ends as `[1, 2, 3, 4]` (length 4, past
`frame_size`, so the `len == frame_size` test can never fire again)
and no later frame is ever emitted — the claim's "buffer is emptied
and later full frames are still emitted" fails. -/
theorem c3_encoder_failure_keeps_buffer :
    (feedFramer encFailFirst (OpusFramer.init 2) [1, 2, 3, 4]).2 = [] ∧
    (feedFramer encFailFirst (OpusFramer.init 2) [1, 2, 3, 4]).1.raw_samples =
      [1, 2, 3, 4] := by
  constructor <;> rfl

/-! ## Decode-loop claims (C4) -/

/-- Unmarshal oracle for the C4 runs: the byte buffer `[0]` is
malformed, everything else parses to a packet with that payload. -/
def unmarshalEx : List Nat → Except String RtpPacket :=
  fun bytes =>
    if bytes = [0] then .error ("unmarshal rtp packet failed") else .ok ⟨bytes⟩

/-- A sample-builder oracle that records every pushed packet and never
produces a frame. -/
def pushCollect : List RtpPacket → RtpPacket → List RtpPacket × List (List Nat) :=
  fun b p => (b ++ [p], [])

/-- Counterexample to C4 as stated: reading a malformed packet (`[0]`)
followed by a well-formed one (`[7]`) terminates the pipeline at the
malformed packet — the loop does not continue, and the subsequent
well-formed packet is never pushed into the sample builder (the
builder state stays empty). -/
theorem c4_malformed_counterexample :
    decode_media_stream unmarshalEx pushCollect (fun _ => some [])
      { builder := ([] : List RtpPacket), sent := [] }
      [TrackRead.ok [0], TrackRead.ok [7]] =
    ({ builder := [], sent := [] },
      DecodeOutcome.malformedPacket ("unmarshal rtp packet failed")) := by
  rfl

/-- C4 amended: a packet that fails to parse is logged and immediately
terminates the stream's pipeline — exactly like a read failure from
the underlying packet source — leaving the pipeline state untouched
and the remaining reads unexamined. -/
theorem c4_malformed_terminates {σ : Type}
    (unmarshal : List Nat → Except String RtpPacket)
    (pushDrain : σ → RtpPacket → σ × List (List Nat))
    (decode : List Nat → Option (List Int))
    (st : DecodeState σ) (bytes : List Nat) (m : String) (rest : List TrackRead)
    (h : unmarshal bytes = .error m) :
    decode_media_stream unmarshal pushDrain decode st
      (TrackRead.ok bytes :: rest) = (st, DecodeOutcome.malformedPacket m) ∧
    ∀ (msg : String) (rest' : List TrackRead),
      decode_media_stream unmarshal pushDrain decode st
        (TrackRead.err msg :: rest') = (st, DecodeOutcome.trackClosed msg) := by
  constructor
  · simp only [decode_media_stream]
    rw [h]
  · intro msg rest'
    rfl

/-- Witness for the amended C4 at a concrete input: the malformed
buffer `[0]` stops the loop with the state unchanged. -/
theorem c4_malformed_terminates_witness :
    decode_media_stream unmarshalEx pushCollect (fun _ => some [])
      { builder := ([] : List RtpPacket), sent := [] } [TrackRead.ok [0]] =
      ({ builder := [], sent := [] },
        DecodeOutcome.malformedPacket ("unmarshal rtp packet failed")) :=
  (c4_malformed_terminates unmarshalEx pushCollect (fun _ => some [])
    { builder := [], sent := [] } [0] "unmarshal rtp packet failed" [] rfl).1
